import Mathlib

/-!
Verification development for the astromodels model parser.

The definitions below are a shallow embedding of `astromodels/model_parser.py`,
`astromodels/sources/point_source.py` and `astromodels/spectral_component.py`.
Collaborators that are not part of those files (the `Parameter` /
`IndependentVariable` classes, the `Node` tree primitive, the `Model` root
container, the function catalog, `SkyDirection` and `Polarization`) are
modelled from the specification, as indicated on each definition.

Documents are pre-parsed nested mappings; mappings are modelled as
insertion-ordered association lists, matching the ordered-mapping semantics
the parser relies on.  Numeric scalars are modelled as rationals.  Python
exceptions that the parser raises deliberately are modelled as
`Err.modelSyntaxError` carrying the exact message string built by the source;
uncaught Python-level exceptions (TypeError / IndexError / AttributeError)
are collapsed into `Err.pyError`.
-/

/-- A scalar or nested-mapping value of the deserialized document. -/
inductive YVal where
  | num (q : Rat)
  | str (s : String)
  | bool (b : Bool)
  | map (entries : List (String × YVal))
deriving Repr

/-- Association-list lookup, first match wins (ordered-dict lookup). -/
def lookupY : List (String × YVal) → String → Option YVal
  | [], _ => none
  | (k, v) :: rest, key => if k = key then some v else lookupY rest key

/-- Errors surfaced by the embedded parser.  `modelSyntaxError` mirrors the
`ModelSyntaxError` exception with its exact message; `pyError` stands for an
uncaught Python-level exception; the remaining constructors model errors of
collaborators that are described in the specification but whose code is not
part of the analysed files. -/
inductive Err where
  | modelSyntaxError (msg : String)
  | pyError
  | boundsError
  | assertionError
  | duplicateName (n : String)
  | unresolvedLink (p : String)
deriving Repr, DecidableEq

/-- Modelled from the spec: `parameter.py` is not among the analysed files.
A `Parameter` per §4.2 holds a name, a numeric value, optional bounds, an
optional step size, a free/fixed flag, an optional unit, and, once linked, an
auxiliary-variable record; here the auxiliary record keeps the referenced
variable path together with the name of the law function attached to it. -/
structure Param where
  name : String
  value : Rat
  minValue : Option Rat := none
  maxValue : Option Rat := none
  delta : Option Rat := none
  free : Bool := true
  unit : Option String := none
  aux : Option (String × String) := none
deriving Repr, DecidableEq

/-- A parameter-bearing function instance, as delivered by the external
function catalog (§6): a name plus an insertion-ordered parameter list. -/
structure FunctionInstance where
  name : String
  params : List Param
deriving Repr, DecidableEq

/-- A pending link record collected during pass 1 (model_parser.py lines
448-450): the dotted path of the linked parameter, the parsed law instance,
and the referenced variable text captured from the `f(...)` pattern. -/
structure Link where
  parameterPath : String
  law : FunctionInstance
  varName : String
deriving Repr, DecidableEq

/-- Dot-join of path segments, mirroring `".".join([...])`. -/
def dotJoin (segs : List String) : String := String.intercalate "." segs

/-- The prefix of `cs` that stands before the last closing parenthesis,
or `none` when no closing parenthesis occurs. -/
def upToLastParen : List Char → Option (List Char)
  | [] => none
  | c :: cs =>
    match upToLastParen cs with
    | some p => some (c :: p)
    | none => if c = ')' then some [] else none

/-- First capture of the pattern used at model_parser.py line 422
(an `f(`, then a greedy non-empty group, then `)`): the scan finds the
leftmost `f(` that is followed, at distance at least one, by the last `)`,
and captures everything in between. -/
def findFMatch : List Char → Option (List Char)
  | [] => none
  | 'f' :: '(' :: rest =>
    (match upToLastParen rest with
     | some p => if p = [] then findFMatch ('(' :: rest) else some p
     | none => findFMatch ('(' :: rest))
  | _ :: cs => findFMatch cs

/-- Embedding of `re.findall('f\\((.+)\\)', str(value))` applied to a document value: for a
string the pattern is matched literally; the textual form of a numeric or
boolean scalar can never contain the substring "f(", and nested mappings
never appear as `value` entries in the grammar, so these yield no match. -/
def linkMatch : YVal → Option String
  | .str s => (findFMatch s.toList).map (fun cs => String.mk cs)
  | _ => none

/-- Exact message of model_parser.py lines 370-371. -/
def unknownFunctionMsg (fn comp src : String) : String :=
  s!"Function {fn}, specified as shape for component {comp} of source {src}, is not a known 1d function"

/-- Exact message of model_parser.py lines 384-386. -/
def lacksDefinitionMsg (fn comp src pname : String) : String :=
  s!"Function {fn}, specified as shape for component {comp} of source {src}, lacks the definition for parameter {pname}"

/-- Exact message of model_parser.py lines 416-418. -/
def missingValueMsg (pname fn comp src : String) : String :=
  s!"The parameter {pname} in function {fn}, specified as shape for component {comp} of source {src}, lacks a \x27value\x27 attribute"

/-- Exact message of model_parser.py lines 436-439. -/
def missingLawMsg (pname fn comp src lv : String) : String :=
  s!"The parameter {pname} in function {fn}, specified as shape for component {comp} of source {src}, is linked to {lv} but lacks a \x27law\x27 attribute"

/-- Exact message of model_parser.py line 258. -/
def missingPositionMsg (src : String) : String :=
  s!"Point source {src} is missing the \x27position\x27 attribute"

/-- Exact message of model_parser.py line 270. -/
def missingSpectrumMsg (src : String) : String :=
  s!"Point source {src} is missing the \x27spectrum\x27 attribute"

/-- Exact message of model_parser.py lines 318-320 (note the doubled space
produced by the juxtaposed string literals). -/
def invalidCoordinatesMsg (src : String) : String :=
  s!"Position specification for source {src} has an invalid coordinate pair.  You need to specify either \x27ra\x27 and \x27dec\x27, or \x27l\x27 and \x27b\x27."

/-- Exact message of model_parser.py lines 216-218. -/
def unknownKindMsg (srcName : String) : String :=
  s!"Don\x27t recognize type for source \x27{srcName}\x27. Valid types are \x27point source\x27 or \x27extended source\x27."

/-- Modelled from the spec: writing `min_value` stores the bound (§4.2);
a non-numeric bound is a Python-level type error. -/
def setMinF (p : Param) (v : YVal) : Except Err Param :=
  match v with
  | .num q => .ok { p with minValue := some q }
  | _ => .error .pyError

/-- Modelled from the spec: writing `max_value` stores the bound (§4.2). -/
def setMaxF (p : Param) (v : YVal) : Except Err Param :=
  match v with
  | .num q => .ok { p with maxValue := some q }
  | _ => .error .pyError

/-- Modelled from the spec: writing `delta` stores the step size (§4.2). -/
def setDeltaF (p : Param) (v : YVal) : Except Err Param :=
  match v with
  | .num q => .ok { p with delta := some q }
  | _ => .error .pyError

/-- Modelled from the spec: `fix` and `free` are two views of one boolean
state; setting one toggles the other (§4.2). -/
def setFixF (p : Param) (v : YVal) : Except Err Param :=
  match v with
  | .bool b => .ok { p with free := !b }
  | _ => .error .pyError

/-- Modelled from the spec: setting `free` stores the flag (§4.2). -/
def setFreeF (p : Param) (v : YVal) : Except Err Param :=
  match v with
  | .bool b => .ok { p with free := b }
  | _ => .error .pyError

/-- Modelled from the spec: setting `unit` stores the unit tag (§4.2). -/
def setUnitF (p : Param) (v : YVal) : Except Err Param :=
  match v with
  | .str s => .ok { p with unit := some s }
  | _ => .error .pyError

/-- Modelled from the spec: writing `value` fails when the value lies outside
the bounds that are set at that moment (§4.2); the embedded parser relies on
this when it applies `min` and `max` before assigning the value. -/
def setValueF (p : Param) (v : YVal) : Except Err Param :=
  match v with
  | .num q =>
    if (match p.minValue with | some lo => decide (lo ≤ q) | none => true)
        && (match p.maxValue with | some hi => decide (q ≤ hi) | none => true) then
      .ok { p with value := q }
    else
      .error .boundsError
  | _ => .error .pyError

/-- One optional per-parameter entry (one `if key in this_definition:` block
of model_parser.py lines 394-410): when the key is present the corresponding
attribute is written and the key is recorded on the application trace. -/
def applyOne (key : String) (set : Param → YVal → Except Err Param)
    (p : Param) (tr : List String) (d : List (String × YVal)) :
    Except Err (Param × List String) :=
  match lookupY d key with
  | none => .ok (p, tr)
  | some v =>
    match set p v with
    | .ok p2 => .ok (p2, tr ++ [key])
    | .error e => .error e

/-- The six optional attribute writes of model_parser.py lines 394-410, in
source order: min, max, delta, fix, free, unit. -/
def applyOptionals (p : Param) (d : List (String × YVal)) :
    Except Err (Param × List String) :=
  match applyOne "min" setMinF p [] d with
  | .error e => .error e
  | .ok (p1, t1) =>
    match applyOne "max" setMaxF p1 t1 d with
    | .error e => .error e
    | .ok (p2, t2) =>
      match applyOne "delta" setDeltaF p2 t2 d with
      | .error e => .error e
      | .ok (p3, t3) =>
        match applyOne "fix" setFixF p3 t3 d with
        | .error e => .error e
        | .ok (p4, t4) =>
          match applyOne "free" setFreeF p4 t4 d with
          | .error e => .error e
          | .ok (p5, t5) =>
            match applyOne "unit" setUnitF p5 t5 d with
            | .error e => .error e
            | .ok (p6, t6) => .ok (p6, t6)

/-- The optional per-parameter keys in the order the source consults them. -/
def optKeys : List String := ["min", "max", "delta", "fix", "free", "unit"]

/-- Holds when the value stored under a present optional key has the type
its setter expects (absent keys are fine). -/
def wtOpt (d : List (String × YVal)) (k : String) (ok : YVal → Bool) : Bool :=
  match lookupY d k with
  | none => true
  | some v => ok v

def isNumV : YVal → Bool
  | .num _ => true
  | _ => false

def isBoolV : YVal → Bool
  | .bool _ => true
  | _ => false

def isStrV : YVal → Bool
  | .str _ => true
  | _ => false

/-- All optional entries present in a per-parameter definition are well typed
for their setters. -/
def wtOptionals (d : List (String × YVal)) : Bool :=
  wtOpt d "min" isNumV && wtOpt d "max" isNumV && wtOpt d "delta" isNumV
    && wtOpt d "fix" isBoolV && wtOpt d "free" isBoolV && wtOpt d "unit" isStrV

/-- The body of the per-parameter loop of `_parse_shape_definition`
(model_parser.py lines 376-457), with the recursive call for the `law` shape
abstracted into the `lawParse` argument: fetch the user entry for the catalog
parameter (a missing entry gives the exact error of lines 384-386), apply the
optional keys in source order, require `value` (lines 414-418), and either
record a pending link after parsing the `law` shape (lines 422-450) or assign
the value (line 456).  The third component of the result is the trace of
attribute writes performed on the parameter, in order. -/
def processParamG (lawParse : String → YVal → Except Err (FunctionInstance × List Link))
    (srcName compName fnName : String) (pdefV : YVal) (p : Param) :
    Except Err (Param × List Link × List String) :=
  match pdefV with
  | .map pdef =>
    match lookupY pdef p.name with
    | none => .error (.modelSyntaxError (lacksDefinitionMsg fnName compName srcName p.name))
    | some (.map d) =>
      match applyOptionals p d with
      | .error e => .error e
      | .ok (p1, tr) =>
        match lookupY d "value" with
        | none => .error (.modelSyntaxError (missingValueMsg p.name fnName compName srcName))
        | some v =>
          match linkMatch v with
          | some linkedVar =>
            match lookupY d "law" with
            | none => .error (.modelSyntaxError (missingLawMsg p.name fnName compName srcName linkedVar))
            | some (.map []) => .error .pyError
            | some (.map ((lfn, lv0) :: lrest)) =>
              match lookupY ((lfn, lv0) :: lrest) lfn with
              | none => .error .pyError
              | some lawFnDef =>
                match lawParse lfn lawFnDef with
                | .error e => .error e
                | .ok (lawInst, innerLinks) =>
                  .ok (p1,
                       innerLinks
                         ++ [⟨dotJoin [srcName, "spectrum", compName, fnName, p.name],
                              lawInst, linkedVar⟩],
                       tr)
            | some _ => .error .pyError
          | none =>
            match setValueF p1 v with
            | .error e => .error e
            | .ok p2 => .ok (p2, [], tr ++ ["value"])
    | some _ => .error .pyError
  | _ => .error .pyError

/-- The `for parameter_name in function_instance.parameters.keys():` loop of
model_parser.py lines 376-457, iterating over the catalog-declared parameter
list (not over the keys of the user mapping). -/
def goParams (lawParse : String → YVal → Except Err (FunctionInstance × List Link))
    (srcName compName fnName : String) (pdefV : YVal) :
    List Param → Except Err (List Param × List Link)
  | [] => .ok ([], [])
  | p :: rest =>
    match processParamG lawParse srcName compName fnName pdefV p with
    | .error e => .error e
    | .ok (p1, links1, _) =>
      match goParams lawParse srcName compName fnName pdefV rest with
      | .error e => .error e
      | .ok (ps, links2) => .ok (p1 :: ps, links1 ++ links2)

mutual

/-- Size of a document value, used to bound the recursion depth of shape
parsing (every nested sub-value is strictly smaller). -/
def ySize : YVal → Nat
  | .num _ => 1
  | .str _ => 1
  | .bool _ => 1
  | .map es => 1 + ySizeL es

/-- Size of a document mapping. -/
def ySizeL : List (String × YVal) → Nat
  | [] => 0
  | (_, v) :: rest => 1 + ySize v + ySizeL rest

end

/-- Fuel-indexed embedding of `SourceParser._parse_shape_definition`
(model_parser.py lines 360-461): look the function up in the catalog (unknown
functions give the exact `ModelSyntaxError` of lines 370-371), then walk the
parameter list declared by the catalog instance; the fuel bounds the nesting
depth of recursively parsed `law` shapes and strictly dominates the size of
the definition, so the zero-fuel branch is unreachable from the wrapper
below. -/
def parseShapeF : Nat → (String → Option FunctionInstance) → String → String → String →
    YVal → Except Err (FunctionInstance × List Link)
  | 0, _, _, _, _, _ => .error .pyError
  | fuel + 1, catalog, srcName, compName, fnName, pdefV =>
    match catalog fnName with
    | none => .error (.modelSyntaxError (unknownFunctionMsg fnName compName srcName))
    | some fi =>
      match goParams (fun lfn lawDefV => parseShapeF fuel catalog srcName compName lfn lawDefV)
              srcName compName fnName pdefV fi.params with
      | .error e => .error e
      | .ok (ps, links) => .ok ({ fi with params := ps }, links)

/-- Embedding of `SourceParser._parse_shape_definition`: the fuel `ySize pdefV + 1` is
sufficient for every run, because each recursively parsed `law` definition is
a strict sub-value of the enclosing parameter definition. -/
def parseShape (catalog : String → Option FunctionInstance)
    (srcName compName fnName : String) (pdefV : YVal) :
    Except Err (FunctionInstance × List Link) :=
  parseShapeF (ySize pdefV + 1) catalog srcName compName fnName pdefV

/-- The per-parameter step with the law recursion tied back to
`parseShape` itself. -/
def processParam (catalog : String → Option FunctionInstance)
    (srcName compName fnName : String) (pdefV : YVal) (p : Param) :
    Except Err (Param × List Link × List String) :=
  processParamG (fun lfn lawDefV => parseShape catalog srcName compName lfn lawDefV)
    srcName compName fnName pdefV p

/-- Modelled from the spec: polarization descriptors are opaque leaf entities
(§1); a component built without one carries the default "none" polarization
(§4.3 step 4). -/
structure Polarization where
  kind : String := "none"
deriving Repr, DecidableEq

/-- Embedding of `SpectralComponent` (spectral_component.py): a name, the
shape function instance, and a polarization descriptor. -/
structure SpectralComponentE where
  name : String
  shape : FunctionInstance
  polarization : Polarization
deriving Repr, DecidableEq

/-- Embedding of `SpectralComponent.__init__` (spectral_component.py lines
16-39): when no polarization is handed in, the default `Polarization()` is
stored. -/
def spectralComponentInit (name : String) (shape : FunctionInstance)
    (pol : Option Polarization) : SpectralComponentE :=
  { name := name, shape := shape, polarization := pol.getD {} }

/-- Modelled from the spec: `SkyDirection` is an opaque position entity built
from a coordinate pair plus an optional epoch (§1); the parser hands it the
coordinate parameters it built and the pass-through `equinox` entry. -/
structure SkyDirection where
  coords : List (String × Param)
  equinox : Option YVal := none
deriving Repr

/-- Modelled from the spec: `IndependentVariable` is a free-standing named
scalar usable as the input of a link (§3). -/
structure IndependentVariable where
  name : String
  value : Rat
deriving Repr, DecidableEq

/-- Payload of a model-tree node: plain structural node, parameter leaf, or
independent-variable leaf. -/
inductive NodeKind where
  | plain
  | par (p : Param)
  | indVar (v : IndependentVariable)
deriving Repr, DecidableEq

/-- Modelled from the spec: the generic `Node` tree primitive (§4.1) — a
name, a payload and an ordered list of uniquely-named children. -/
inductive MTree where
  | node (name : String) (kind : NodeKind) (children : List MTree)
deriving Repr

def MTree.name : MTree → String
  | .node n _ _ => n

def MTree.kind : MTree → NodeKind
  | .node _ k _ => k

def MTree.children : MTree → List MTree
  | .node _ _ c => c

/-- Modelled from the spec: `Node.add_child` appends the child under its own
name and fails when a sibling with that name already exists (§4.1). -/
def addChild (t c : MTree) : Except Err MTree :=
  if t.children.any (fun x => x.name = c.name) then
    .error (.duplicateName c.name)
  else
    .ok (.node t.name t.kind (t.children ++ [c]))

/-- Embedding of `Node.add_children`: add the given nodes in order. -/
def addChildren (t : MTree) : List MTree → Except Err MTree
  | [] => .ok t
  | c :: cs =>
    match addChild t c with
    | .error e => .error e
    | .ok t1 => addChildren t1 cs

def getChild (cs : List MTree) (n : String) : Option MTree :=
  cs.find? (fun c => c.name = n)

/-- Splitting on the dot separator, mirroring `str.split(".")` (empty
segments are kept, the empty string yields one empty segment). -/
def dotSplitAux : List Char → List Char → List String
  | [], acc => [String.mk acc.reverse]
  | c :: cs, acc =>
    if c = '.' then String.mk acc.reverse :: dotSplitAux cs []
    else dotSplitAux cs (c :: acc)

def splitDots (s : String) : List String := dotSplitAux s.toList []

/-- Modelled from the spec: `resolve_path` splits the dotted path and walks
children in order (§4.1). -/
def resolveSegs : MTree → List String → Option MTree
  | t, [] => some t
  | t, s :: rest =>
    match getChild t.children s with
    | none => none
    | some c => resolveSegs c rest

def resolvePath (t : MTree) (p : String) : Option MTree :=
  resolveSegs t (splitDots p)

/-- Replace the first child carrying the given name. -/
def replaceChild : List MTree → String → MTree → List MTree
  | [], _, _ => []
  | x :: xs, s, c => if x.name = s then c :: xs else x :: replaceChild xs s c

/-- Apply `f` to the parameter stored at the given path (the pure-tree
counterpart of mutating the resolved `Parameter` object in place). -/
def updateAtSegs (f : Param → Param) : MTree → List String → Option MTree
  | .node n (.par p) cs, [] => some (.node n (.par (f p)) cs)
  | .node _ _ _, [] => none
  | .node n k cs, s :: rest =>
    match getChild cs s with
    | none => none
    | some c =>
      match updateAtSegs f c rest with
      | none => none
      | some c2 => some (.node n k (replaceChild cs s c2))

/-- The tree view of a `SkyDirection` registered under the explicit name
"position" (point_source.py lines 119-123). -/
def skyNode (sd : SkyDirection) : MTree :=
  .node "position" .plain (sd.coords.map (fun c => .node c.1 (.par c.2) []))

/-- The tree view of a function instance: a node named after the function
whose children are its parameters (spec §6: the programmatic access surface
exposes `model.<source>.<component>.shape.<param>`). -/
def funcNode (fi : FunctionInstance) : MTree :=
  .node fi.name .plain (fi.params.map (fun p => .node p.name (.par p) []))

/-- The tree view of a spectral component: shape and polarization children
(spectral_component.py line 39). -/
def componentNode (c : SpectralComponentE) : MTree :=
  .node c.name .plain [funcNode c.shape, .node "polarization" .plain []]

/-- Embedding of `SkyDirection.fix()`: fix all positional parameters
(point_source.py line 96). -/
def skyFix (sd : SkyDirection) : SkyDirection :=
  { sd with coords := sd.coords.map (fun c => (c.1, { c.2 with free := false })) }

/-- Modelled from the spec: `Source.__init__` (not among the analysed files)
keeps the components as a name-keyed insertion-ordered collection (§3), so a
repeated name replaces the stored component in place. -/
def insertByName (acc : List SpectralComponentE) (c : SpectralComponentE) :
    List SpectralComponentE :=
  match acc with
  | [] => [c]
  | x :: xs => if x.name = c.name then c :: xs else x :: insertByName xs c

def componentsByName (cs : List SpectralComponentE) : List SpectralComponentE :=
  cs.foldl insertByName []

/-- Modelled from the spec: `SkyDirection` built from an equatorial pair by
the `PointSource` constructor (point_source.py line 86); the entity is opaque
here, holding the two coordinate parameters. -/
def mkSkyDirRaDec (ra dec : Rat) : SkyDirection :=
  { coords := [("ra", { name := "ra", value := ra }), ("dec", { name := "dec", value := dec })] }

/-- Modelled from the spec: `SkyDirection` built from a galactic pair
(point_source.py line 90). -/
def mkSkyDirLB (l b : Rat) : SkyDirection :=
  { coords := [("l", { name := "l", value := l }), ("b", { name := "b", value := b })] }

/-- The position-gathering step of `PointSource.__init__` (point_source.py
lines 70-90): a handed-in `SkyDirection` wins, else an equatorial pair, else
a galactic pair built by the opaque collaborator; reaching the galactic
branch with a missing coordinate is a collaborator failure. -/
def gatherSkyPosition (ra dec l b : Option Rat)
    (skyPosition : Option SkyDirection) : Except Err SkyDirection :=
  match skyPosition with
  | some sd => .ok sd
  | none =>
    match ra, dec with
    | some rv, some dv => .ok (mkSkyDirRaDec rv dv)
    | _, _ =>
      match l, b with
      | some lv, some bv => .ok (mkSkyDirLB lv bv)
      | _, _ => .error .pyError

/-- Embedding of `PointSource.__init__` (point_source.py lines 55-131): the
two parity assertions, the gathering of the position, the defaulted "main"
component for a bare spectral shape, and the tree assembly — the position
child named "position" followed by a node named "spectrum" holding the
components. -/
def pointSourceInit (sourceName : String) (ra dec : Option Rat)
    (spectralShape : Option FunctionInstance) (l b : Option Rat)
    (components : Option (List SpectralComponentE))
    (skyPosition : Option SkyDirection) : Except Err MTree :=
  let posA := ra.isSome && dec.isSome
  let posB := l.isSome && b.isSome
  let posC := skyPosition.isSome
  if !((posA != posB) != posC) then
    .error .assertionError
  else
    match gatherSkyPosition ra dec l b skyPosition with
    | .error e => .error e
    | .ok sky0 =>
      let sky := skyFix sky0
      if !(spectralShape.isSome != components.isSome) then
        .error .assertionError
      else
        let comps :=
          match spectralShape with
          | some sh => [spectralComponentInit "main" sh none]
          | none => components.getD []
        let compsD := componentsByName comps
        match addChild (.node sourceName .plain []) (skyNode sky) with
        | .error e => .error e
        | .ok t1 =>
          match addChildren (.node "spectrum" .plain []) (compsD.map componentNode) with
          | .error e => .error e
          | .ok specNode => addChild t1 specNode

/-- Embedding of `SourceParser._parse_sky_direction` (model_parser.py lines
284-336): recognize the `{ra, dec}` pair first, otherwise the `{l, b}` pair,
otherwise raise the exact invalid-coordinate message; each coordinate becomes
a parameter with the fixed numeric bounds, fixed by default, and an optional
`equinox` entry is passed through. -/
def parseSkyDirection (srcName : String) (sdDefV : YVal) : Except Err SkyDirection :=
  match sdDefV with
  | .map sdDef =>
    let coordParam := fun (n : String) (lo hi : Rat) =>
      match lookupY sdDef n with
      | some (.map m) =>
        match lookupY m "value" with
        | some (.num q) =>
          Except.ok { name := n, value := q, minValue := some lo, maxValue := some hi,
                      free := false : Param }
        | _ => Except.error Err.pyError
      | _ => Except.error Err.pyError
    match
      (if (lookupY sdDef "ra").isSome && (lookupY sdDef "dec").isSome then
        match coordParam "ra" 0 360 with
        | .error e => Except.error e
        | .ok ra =>
          match coordParam "dec" (-90) 90 with
          | .error e => Except.error e
          | .ok dec => Except.ok [("ra", ra), ("dec", dec)]
      else if (lookupY sdDef "l").isSome && (lookupY sdDef "b").isSome then
        match coordParam "l" 0 360 with
        | .error e => Except.error e
        | .ok lp =>
          match coordParam "b" (-90) 90 with
          | .error e => Except.error e
          | .ok bp => Except.ok [("l", lp), ("b", bp)]
      else
        Except.error (Err.modelSyntaxError (invalidCoordinatesMsg srcName)))
    with
    | .error e => .error e
    | .ok coords => .ok { coords := coords, equinox := lookupY sdDef "equinox" }
  | _ => .error .pyError

/-- Embedding of `SourceParser._parse_spectral_component` (model_parser.py
lines 338-358): the shape is parsed from the first key of the component
mapping, and the freshly built default `Polarization()` is stored on the
component regardless of the document content. -/
def parseSpectralComponent (catalog : String → Option FunctionInstance)
    (srcName compName : String) (compDefV : YVal) :
    Except Err (SpectralComponentE × List Link) :=
  match compDefV with
  | .map [] => .error .pyError
  | .map ((fnName, pdefV) :: _) =>
    match parseShape catalog srcName compName fnName pdefV with
    | .error e => .error e
    | .ok (shape, links) =>
      .ok (spectralComponentInit compName shape (some {}), links)
  | _ => .error .pyError

/-- Fold over the components of a `spectrum` section in document order. -/
def parseComponents (catalog : String → Option FunctionInstance)
    (srcName : String) :
    List (String × YVal) → Except Err (List SpectralComponentE × List Link)
  | [] => .ok ([], [])
  | (compName, compDefV) :: rest =>
    match parseSpectralComponent catalog srcName compName compDefV with
    | .error e => .error e
    | .ok (c, links1) =>
      match parseComponents catalog srcName rest with
      | .error e => .error e
      | .ok (cs, links2) => .ok (c :: cs, links1 ++ links2)

/-- Embedding of `SourceParser._parse_point_source` (model_parser.py lines
248-282): require the `position` section, parse the sky direction, require
the `spectrum` section, parse each component, and build the `PointSource`. -/
def parsePointSource (catalog : String → Option FunctionInstance)
    (srcName : String) (defnV : YVal) : Except Err (MTree × List Link) :=
  match defnV with
  | .map entries =>
    match lookupY entries "position" with
    | none => .error (.modelSyntaxError (missingPositionMsg srcName))
    | some posV =>
      match parseSkyDirection srcName posV with
      | .error e => .error e
      | .ok sd =>
        match lookupY entries "spectrum" with
        | none => .error (.modelSyntaxError (missingSpectrumMsg srcName))
        | some specV =>
          match specV with
          | .map comps =>
            match parseComponents catalog srcName comps with
            | .error e => .error e
            | .ok (components, links) =>
              match pointSourceInit srcName none none none none none
                      (some components) (some sd) with
              | .error e => .error e
              | .ok t => .ok (t, links)
          | _ => .error .pyError
  | _ => .error .pyError

/-- Source kinds recognized by the tag regex of model_parser.py line 212. -/
inductive SourceKind where
  | point
  | extended
deriving Repr, DecidableEq

/-- All occurrences, left to right, of the literal alternatives
`(point source)` / `(extended source)` in the raw top-level key, as matched
by `re.findall` at model_parser.py line 212. -/
def scanKinds : List Char → List SourceKind
  | [] => []
  | c :: cs =>
    (if List.isPrefixOf "(point source)".toList (c :: cs) then [SourceKind.point]
     else if List.isPrefixOf "(extended source)".toList (c :: cs) then [SourceKind.extended]
     else [])
      ++ scanKinds cs

/-- Embedding of `re.findall(...)[-1]`: the last tag occurrence decides the source kind. -/
def sourceTypeOf (rawName : String) : Option SourceKind :=
  (scanKinds rawName.toList).getLast?

/-- Index of the first occurrence of `pat` in `hay`, mirroring `str.find`
(with `none` for the -1 "not found" result). -/
def subPos (hay pat : List Char) : Option Nat :=
  if List.isPrefixOf pat hay then some 0
  else
    match hay with
    | [] => none
    | _ :: t => (subPos t pat).map (fun i => i + 1)

/-- Splitting on whitespace runs with empty tokens dropped, mirroring the
argument-free `str.split()`. -/
def wsSplitAux : List Char → List Char → List (List Char)
  | [], acc => if acc.isEmpty then [] else [acc.reverse]
  | c :: cs, acc =>
    if c.isWhitespace then
      if acc.isEmpty then wsSplitAux cs [] else acc.reverse :: wsSplitAux cs []
    else wsSplitAux cs (c :: acc)

/-- Embedding of `source_name.split()[0]`: the first whitespace-separated token. -/
def firstToken (s : String) : Option String :=
  ((wsSplitAux s.toList []).map (fun cs => String.mk cs)).head?

/-- The result of parsing one top-level source entry: a point source is a
built tree; the extended-source sub-parser of model_parser.py lines 463-465
returns the bare placeholder `0`, which is modelled verbatim. -/
inductive ParsedSource where
  | point (t : MTree)
  | placeholder (n : Nat)
deriving Repr

/-- Embedding of `SourceParser.__init__` (model_parser.py lines 204-237):
recognize the source-kind tag (its absence raises the exact message of lines
216-218), strip the name to its first token, and dispatch to the per-kind
sub-parser; `_parse_extended_source` returns the constant `0` and collects no
links. -/
def sourceParse (catalog : String → Option FunctionInstance)
    (rawName : String) (defnV : YVal) : Except Err (ParsedSource × List Link) :=
  match sourceTypeOf rawName with
  | none => .error (.modelSyntaxError (unknownKindMsg rawName))
  | some kind =>
    match firstToken rawName with
    | none => .error .pyError
    | some srcName =>
      match kind with
      | .point =>
        match parsePointSource catalog srcName defnV with
        | .error e => .error e
        | .ok (t, links) => .ok (.point t, links)
      | .extended => .ok (.placeholder 0, [])

/-- Modelled from the spec: `IndependentVariable(name, **definition)`
(model_parser.py line 196) constructs the named scalar from the keyword
arguments of its definition mapping; the scalar's value entry is required. -/
def indVarInit (name : String) (defnV : YVal) : Except Err IndependentVariable :=
  match defnV with
  | .map m =>
    match lookupY m "value" with
    | some (.num q) => .ok { name := name, value := q }
    | _ => .error .pyError
  | _ => .error .pyError

/-- Embedding of `source_or_var_name.find("(IndependentVariable)") > 0`
(model_parser.py line 149). -/
def isIndVarKey (key : String) : Bool :=
  match subPos key.toList "(IndependentVariable)".toList with
  | some i => decide (0 < i)
  | none => false

/-- Embedding of `source_or_var_name.split("(")[0].replace(" ", "")`
(model_parser.py line 151): the prefix before the first opening parenthesis,
with every space removed. -/
def indVarName (key : String) : String :=
  String.mk ((key.toList.takeWhile (fun c => c ≠ '(')).filter (fun c => c ≠ ' '))

/-- The state accumulated by `ModelParser._parse` (model_parser.py lines
143-163): sources, independent variables and pending link records, each in
document order. -/
structure ParsedState where
  sources : List ParsedSource
  indVars : List IndependentVariable
  links : List Link
deriving Repr

/-- Embedding of the top-level loop of `ModelParser._parse` (model_parser.py
lines 147-163): walk the document entries in order; keys carrying the
independent-variable tag build an `IndependentVariable`, all other keys run
the source parser, whose pending links are appended to the global list. -/
def parseEntries (catalog : String → Option FunctionInstance) :
    ParsedState → List (String × YVal) → Except Err ParsedState
  | st, [] => .ok st
  | st, (key, defnV) :: rest =>
    if isIndVarKey key then
      match indVarInit (indVarName key) defnV with
      | .error e => .error e
      | .ok v =>
        parseEntries catalog
          { st with indVars := st.indVars ++ [v] } rest
    else
      match sourceParse catalog key defnV with
      | .error e => .error e
      | .ok (s, links) =>
        parseEntries catalog
          { st with sources := st.sources ++ [s], links := st.links ++ links } rest

/-- Pass 1 over a whole document. -/
def parseDoc (catalog : String → Option FunctionInstance)
    (doc : List (String × YVal)) : Except Err ParsedState :=
  parseEntries catalog { sources := [], indVars := [], links := [] } doc

/-- Modelled from the spec: `Model(*sources)` registers each source as a
uniquely-named child of the root (§4.4); the extended-source placeholder `0`
is not a source entity and cannot be registered. -/
def addSources : MTree → List ParsedSource → Except Err MTree
  | root, [] => .ok root
  | root, .point t :: rest =>
    match addChild root t with
    | .error e => .error e
    | .ok root2 => addSources root2 rest
  | _, .placeholder _ :: _ => .error .pyError

/-- Modelled from the spec: `Model.add_independent_variable` registers the
variable at the model root alongside the sources (§3, §4.4). -/
def addIndVars : MTree → List IndependentVariable → Except Err MTree
  | root, [] => .ok root
  | root, v :: rest =>
    match addChild root (.node v.name (.indVar v) []) with
    | .error e => .error e
    | .ok root2 => addIndVars root2 rest

/-- Pass 2 for one pending link (model_parser.py lines 181-187):
`new_model[path]` is resolved first, then `new_model[variable]`, then
`add_auxiliary_variable` converts the target parameter to linked mode,
recording the referenced variable path and the law's function name. -/
def resolveLink (root : MTree) (lk : Link) : Except Err MTree :=
  match resolvePath root lk.parameterPath with
  | none => .error (.unresolvedLink lk.parameterPath)
  | some target =>
    match resolvePath root lk.varName with
    | none => .error (.unresolvedLink lk.varName)
    | some _ =>
      match target with
      | .node _ (.par _) _ =>
        match updateAtSegs (fun p => { p with aux := some (lk.varName, lk.law.name) })
                root (splitDots lk.parameterPath) with
        | some root2 => .ok root2
        | none => .error .pyError
      | _ => .error .pyError

/-- Pass 2 over the pending links, in insertion order. -/
def resolveLinks : MTree → List Link → Except Err MTree
  | root, [] => .ok root
  | root, lk :: rest =>
    match resolveLink root lk with
    | .error e => .error e
    | .ok root2 => resolveLinks root2 rest

/-- Embedding of `ModelParser.get_model` (model_parser.py lines 167-189):
build the root model from all parsed sources, register every independent
variable, and only then resolve the pending links in insertion order. -/
def getModel (st : ParsedState) : Except Err MTree :=
  match addSources (.node "model" .plain []) st.sources with
  | .error e => .error e
  | .ok root1 =>
    match addIndVars root1 st.indVars with
    | .error e => .error e
    | .ok root2 => resolveLinks root2 st.links

/-- A one-parameter powerlaw instance, used as the injected read-only test
catalog (the function catalog is an external collaborator consumed through a
lookup-by-name contract, spec §1/§6). -/
def powerlawFI : FunctionInstance :=
  { name := "powerlaw", params := [{ name := "K", value := 1 }] }

/-- The injected test catalog: it knows exactly the function "powerlaw". -/
def testCatalog : String → Option FunctionInstance :=
  fun n => if n = "powerlaw" then some powerlawFI else none

/-- Per-parameter definition of the forward-link scenario (spec §8): the
textual value is the link expression `f(time)` and the sibling `law` entry is
a fully specified powerlaw shape. -/
def linkedKDef : List (String × YVal) :=
  [("value", .str "f(time)"),
   ("law", .map [("powerlaw", .map [("K", .map [("value", .num 2)])])])]

/-- The forward-link document of spec §8: source `A` whose parameter `K` is
linked via `f(time)`, followed later in the document by the independent
variable `time`. -/
def docForward : List (String × YVal) :=
  [("A (point source)", .map
     [("position", .map
        [("ra", .map [("value", .num 10)]), ("dec", .map [("value", .num 20)])]),
      ("spectrum", .map
        [("main", .map [("powerlaw", .map [("K", .map linkedKDef)])])])]),
   ("time (IndependentVariable)", .map [("value", .num 5)])]

/-- A component definition carrying an explicit polarization sub-section next
to its shape definition (document grammar of spec §6). -/
def polarizedCompDef : YVal :=
  .map [("powerlaw", .map [("K", .map [("value", .num 1)])]),
        ("polarization", .map
          [("linear", .map
             [("degree", .map [("value", .num 1)]),
              ("angle", .map [("value", .num 45)])])])]

/-- The optional keys of a per-parameter definition that get applied, in the
canonical source order. -/
def optTrace (d : List (String × YVal)) : List String :=
  optKeys.filter (fun k => (lookupY d k).isSome)

/-- Observation: the pending links of a parsed state, reduced to
(parameter path, referenced variable, law function name) triples. -/
def linksView (st : ParsedState) : List (String × String × String) :=
  st.links.map (fun l => (l.parameterPath, l.varName, l.law.name))

/-- Observation: drop the error information of a parse result. -/
def exceptView {α : Type} : Except Err α → Option α
  | .ok a => some a
  | .error _ => none

/-- Observation: run both passes on a document and report the
auxiliary-variable record of the parameter found at `path` (`none` when a
pass fails, `some none` when the path does not resolve, `some (some none)`
when it resolves to a non-parameter or an unlinked parameter). -/
def modelAuxAt (catalog : String → Option FunctionInstance)
    (doc : List (String × YVal)) (path : String) :
    Option (Option (Option (String × String))) :=
  match parseDoc catalog doc with
  | .error _ => none
  | .ok st =>
    match getModel st with
    | .error _ => none
    | .ok m =>
      some ((resolvePath m path).map (fun t =>
        match t.kind with
        | .par p => p.aux
        | _ => none))

/-- Observation: run both passes and report the independent variable
registered at `path` in the finished model. -/
def modelIndVarAt (catalog : String → Option FunctionInstance)
    (doc : List (String × YVal)) (path : String) :
    Option (Option IndependentVariable) :=
  match parseDoc catalog doc with
  | .error _ => none
  | .ok st =>
    match getModel st with
    | .error _ => none
    | .ok m =>
      some ((resolvePath m path).bind (fun t =>
        match t.kind with
        | .indVar v => some v
        | _ => none))

/-- Observation: the placeholder payload of a parsed source, when the source
came out of the extended-source sub-parser. -/
def placeholderOf : ParsedSource → Option Nat
  | .placeholder n => some n
  | .point _ => none

/-- Observation: the numeric `value` entry of the coordinate `k` in a
position section, when the coordinate is well formed. -/
def coordValue (sdDef : List (String × YVal)) (k : String) : Option Rat :=
  match lookupY sdDef k with
  | some (.map m) =>
    match lookupY m "value" with
    | some (.num q) => some q
    | _ => none
  | _ => none

/-- The coordinate parameter the sky-direction parser builds: named, valued,
bounded, fixed (model_parser.py lines 292-298). -/
def mkCoordParam (n : String) (q lo hi : Rat) : Param :=
  { name := n, value := q, minValue := some lo, maxValue := some hi, free := false }

/-! ## Helper lemmas -/

theorem setMinF_pres {q : Param} {v : YVal} {q2 : Param} (h : setMinF q v = .ok q2) :
    q2.value = q.value ∧ q2.name = q.name ∧ q2.aux = q.aux := by
  cases v <;> simp [setMinF] at h <;> simp [← h]

theorem setMaxF_pres {q : Param} {v : YVal} {q2 : Param} (h : setMaxF q v = .ok q2) :
    q2.value = q.value ∧ q2.name = q.name ∧ q2.aux = q.aux := by
  cases v <;> simp [setMaxF] at h <;> simp [← h]

theorem setDeltaF_pres {q : Param} {v : YVal} {q2 : Param} (h : setDeltaF q v = .ok q2) :
    q2.value = q.value ∧ q2.name = q.name ∧ q2.aux = q.aux := by
  cases v <;> simp [setDeltaF] at h <;> simp [← h]

theorem setFixF_pres {q : Param} {v : YVal} {q2 : Param} (h : setFixF q v = .ok q2) :
    q2.value = q.value ∧ q2.name = q.name ∧ q2.aux = q.aux := by
  cases v <;> simp [setFixF] at h <;> simp [← h]

theorem setFreeF_pres {q : Param} {v : YVal} {q2 : Param} (h : setFreeF q v = .ok q2) :
    q2.value = q.value ∧ q2.name = q.name ∧ q2.aux = q.aux := by
  cases v <;> simp [setFreeF] at h <;> simp [← h]

theorem setUnitF_pres {q : Param} {v : YVal} {q2 : Param} (h : setUnitF q v = .ok q2) :
    q2.value = q.value ∧ q2.name = q.name ∧ q2.aux = q.aux := by
  cases v <;> simp [setUnitF] at h <;> simp [← h]

theorem applyOne_ok {k : String} {set : Param → YVal → Except Err Param}
    {p : Param} {tr : List String} {d : List (String × YVal)}
    {p2 : Param} {t2 : List String}
    (hset : ∀ (q : Param) (v : YVal) (q2 : Param), set q v = .ok q2 →
      q2.value = q.value ∧ q2.name = q.name ∧ q2.aux = q.aux)
    (h : applyOne k set p tr d = .ok (p2, t2)) :
    t2 = tr ++ (if (lookupY d k).isSome then [k] else [])
      ∧ p2.value = p.value ∧ p2.name = p.name ∧ p2.aux = p.aux := by
  unfold applyOne at h
  cases hk : lookupY d k with
  | none =>
    simp only [hk] at h
    simp at h
    simp [hk, ← h.1, ← h.2]
  | some v =>
    simp only [hk] at h
    cases hs : set p v with
    | error e => simp only [hs] at h; simp at h
    | ok q2 =>
      simp only [hs] at h
      simp at h
      obtain ⟨h1, h2⟩ := h
      have := hset p v q2 hs
      simp [hk, ← h1, ← h2]
      exact this

theorem applyOptionals_ok {p : Param} {d : List (String × YVal)}
    {p6 : Param} {tr : List String}
    (h : applyOptionals p d = .ok (p6, tr)) :
    tr = optTrace d ∧ p6.value = p.value ∧ p6.name = p.name ∧ p6.aux = p.aux := by
  unfold applyOptionals at h
  cases h1 : applyOne "min" setMinF p [] d with
  | error e => simp only [h1] at h; simp at h
  | ok pt1 =>
    obtain ⟨p1, t1⟩ := pt1
    simp only [h1] at h
    cases h2 : applyOne "max" setMaxF p1 t1 d with
    | error e => simp only [h2] at h; simp at h
    | ok pt2 =>
      obtain ⟨p2, t2⟩ := pt2
      simp only [h2] at h
      cases h3 : applyOne "delta" setDeltaF p2 t2 d with
      | error e => simp only [h3] at h; simp at h
      | ok pt3 =>
        obtain ⟨p3, t3⟩ := pt3
        simp only [h3] at h
        cases h4 : applyOne "fix" setFixF p3 t3 d with
        | error e => simp only [h4] at h; simp at h
        | ok pt4 =>
          obtain ⟨p4, t4⟩ := pt4
          simp only [h4] at h
          cases h5 : applyOne "free" setFreeF p4 t4 d with
          | error e => simp only [h5] at h; simp at h
          | ok pt5 =>
            obtain ⟨p5, t5⟩ := pt5
            simp only [h5] at h
            cases h6 : applyOne "unit" setUnitF p5 t5 d with
            | error e => simp only [h6] at h; simp at h
            | ok pt6 =>
              obtain ⟨p6x, t6⟩ := pt6
              simp only [h6] at h
              simp at h
              obtain ⟨hp, ht⟩ := h
              have a1 := applyOne_ok (fun q v q2 => setMinF_pres) h1
              have a2 := applyOne_ok (fun q v q2 => setMaxF_pres) h2
              have a3 := applyOne_ok (fun q v q2 => setDeltaF_pres) h3
              have a4 := applyOne_ok (fun q v q2 => setFixF_pres) h4
              have a5 := applyOne_ok (fun q v q2 => setFreeF_pres) h5
              have a6 := applyOne_ok (fun q v q2 => setUnitF_pres) h6
              subst hp ht
              constructor
              · rw [a6.1, a5.1, a4.1, a3.1, a2.1, a1.1]
                unfold optTrace optKeys
                simp only [List.filter_cons, List.filter_nil]
                cases (lookupY d "min").isSome <;> cases (lookupY d "max").isSome <;>
                  cases (lookupY d "delta").isSome <;> cases (lookupY d "fix").isSome <;>
                  cases (lookupY d "free").isSome <;> cases (lookupY d "unit").isSome <;>
                  simp
              · refine ⟨?_, ?_, ?_⟩
                · rw [a6.2.1, a5.2.1, a4.2.1, a3.2.1, a2.2.1, a1.2.1]
                · rw [a6.2.2.1, a5.2.2.1, a4.2.2.1, a3.2.2.1, a2.2.2.1, a1.2.2.1]
                · rw [a6.2.2.2, a5.2.2.2, a4.2.2.2, a3.2.2.2, a2.2.2.2, a1.2.2.2]

theorem setMinF_wt {q : Param} {v : YVal} (h : isNumV v = true) :
    ∃ q2, setMinF q v = .ok q2 := by
  cases v <;> simp [isNumV] at h <;> simp [setMinF]

theorem setMaxF_wt {q : Param} {v : YVal} (h : isNumV v = true) :
    ∃ q2, setMaxF q v = .ok q2 := by
  cases v <;> simp [isNumV] at h <;> simp [setMaxF]

theorem setDeltaF_wt {q : Param} {v : YVal} (h : isNumV v = true) :
    ∃ q2, setDeltaF q v = .ok q2 := by
  cases v <;> simp [isNumV] at h <;> simp [setDeltaF]

theorem setFixF_wt {q : Param} {v : YVal} (h : isBoolV v = true) :
    ∃ q2, setFixF q v = .ok q2 := by
  cases v <;> simp [isBoolV] at h <;> simp [setFixF]

theorem setFreeF_wt {q : Param} {v : YVal} (h : isBoolV v = true) :
    ∃ q2, setFreeF q v = .ok q2 := by
  cases v <;> simp [isBoolV] at h <;> simp [setFreeF]

theorem setUnitF_wt {q : Param} {v : YVal} (h : isStrV v = true) :
    ∃ q2, setUnitF q v = .ok q2 := by
  cases v <;> simp [isStrV] at h <;> simp [setUnitF]

theorem applyOne_wt {k : String} {set : Param → YVal → Except Err Param}
    {okf : YVal → Bool} {p : Param} {tr : List String} {d : List (String × YVal)}
    (hwt : wtOpt d k okf = true)
    (hok : ∀ (q : Param) (v : YVal), okf v = true → ∃ q2, set q v = .ok q2) :
    ∃ p2 t2, applyOne k set p tr d = .ok (p2, t2) := by
  unfold wtOpt at hwt
  unfold applyOne
  cases hk : lookupY d k with
  | none => exact ⟨p, tr, rfl⟩
  | some v =>
    rw [hk] at hwt
    obtain ⟨q2, hq2⟩ := hok p v hwt
    exact ⟨q2, tr ++ [k], by simp [hq2]⟩

theorem applyOptionals_wt {p : Param} {d : List (String × YVal)}
    (hwt : wtOptionals d = true) :
    ∃ p6, applyOptionals p d = .ok (p6, optTrace d)
      ∧ p6.value = p.value ∧ p6.name = p.name ∧ p6.aux = p.aux := by
  unfold wtOptionals at hwt
  simp only [Bool.and_eq_true] at hwt
  obtain ⟨⟨⟨⟨⟨w1, w2⟩, w3⟩, w4⟩, w5⟩, w6⟩ := hwt
  obtain ⟨p1, t1, h1⟩ := @applyOne_wt "min" setMinF isNumV p [] d w1 (fun q v hv => setMinF_wt hv)
  obtain ⟨p2, t2, h2⟩ := @applyOne_wt "max" setMaxF isNumV p1 t1 d w2 (fun q v hv => setMaxF_wt hv)
  obtain ⟨p3, t3, h3⟩ := @applyOne_wt "delta" setDeltaF isNumV p2 t2 d w3 (fun q v hv => setDeltaF_wt hv)
  obtain ⟨p4, t4, h4⟩ := @applyOne_wt "fix" setFixF isBoolV p3 t3 d w4 (fun q v hv => setFixF_wt hv)
  obtain ⟨p5, t5, h5⟩ := @applyOne_wt "free" setFreeF isBoolV p4 t4 d w5 (fun q v hv => setFreeF_wt hv)
  obtain ⟨p6, t6, h6⟩ := @applyOne_wt "unit" setUnitF isStrV p5 t5 d w6 (fun q v hv => setUnitF_wt hv)
  have hall : applyOptionals p d = .ok (p6, t6) := by
    unfold applyOptionals
    simp only [h1, h2, h3, h4, h5, h6]
  have := applyOptionals_ok hall
  exact ⟨p6, by rw [hall, this.1], this.2.1, this.2.2.1, this.2.2.2⟩

theorem processParamG_ok_lookup
    {lp : String → YVal → Except Err (FunctionInstance × List Link)}
    {src comp fn : String} {pdefV : YVal} {p : Param}
    {r : Param × List Link × List String}
    (h : processParamG lp src comp fn pdefV p = .ok r) :
    ∃ pd dv, pdefV = .map pd ∧ lookupY pd p.name = some dv := by
  unfold processParamG at h
  cases pdefV with
  | num q => simp at h
  | str s => simp at h
  | bool b => simp at h
  | map pd =>
    cases hd : lookupY pd p.name with
    | none => simp only [hd] at h; simp at h
    | some dv => exact ⟨pd, dv, rfl, hd⟩

theorem processParamG_lacks
    {lp : String → YVal → Except Err (FunctionInstance × List Link)}
    {src comp fn : String} {pd : List (String × YVal)} {p : Param}
    (hd : lookupY pd p.name = none) :
    processParamG lp src comp fn (.map pd) p
      = .error (.modelSyntaxError (lacksDefinitionMsg fn comp src p.name)) := by
  unfold processParamG
  simp only [hd]

theorem processParamG_missing_value
    {lp : String → YVal → Except Err (FunctionInstance × List Link)}
    {src comp fn : String} {pdef d : List (String × YVal)} {p : Param}
    (hpd : lookupY pdef p.name = some (.map d))
    (hwt : wtOptionals d = true)
    (hv : lookupY d "value" = none) :
    processParamG lp src comp fn (.map pdef) p
      = .error (.modelSyntaxError (missingValueMsg p.name fn comp src)) := by
  obtain ⟨p6, ha, _⟩ := applyOptionals_wt (p := p) hwt
  unfold processParamG
  simp only [hpd, ha, hv]

theorem processParamG_missing_law
    {lp : String → YVal → Except Err (FunctionInstance × List Link)}
    {src comp fn : String} {pdef d : List (String × YVal)} {p : Param}
    {v : YVal} {lv : String}
    (hpd : lookupY pdef p.name = some (.map d))
    (hwt : wtOptionals d = true)
    (hv : lookupY d "value" = some v)
    (hlm : linkMatch v = some lv)
    (hl : lookupY d "law" = none) :
    processParamG lp src comp fn (.map pdef) p
      = .error (.modelSyntaxError (missingLawMsg p.name fn comp src lv)) := by
  obtain ⟨p6, ha, _⟩ := applyOptionals_wt (p := p) hwt
  unfold processParamG
  simp only [hpd, ha, hv, hlm, hl]

theorem processParamG_link_ok
    {lp : String → YVal → Except Err (FunctionInstance × List Link)}
    {src comp fn : String} {pdef d : List (String × YVal)} {p : Param}
    {v : YVal} {lv : String} {p2 : Param} {links : List Link} {tr : List String}
    (hpd : lookupY pdef p.name = some (.map d))
    (hv : lookupY d "value" = some v)
    (hlm : linkMatch v = some lv)
    (h : processParamG lp src comp fn (.map pdef) p = .ok (p2, links, tr)) :
    p2.value = p.value ∧ p2.aux = p.aux ∧ tr = optTrace d ∧
    ∃ lfn lv0 lrest lawDefV lawInst inner,
      lookupY d "law" = some (.map ((lfn, lv0) :: lrest)) ∧
      lookupY ((lfn, lv0) :: lrest) lfn = some lawDefV ∧
      lp lfn lawDefV = .ok (lawInst, inner) ∧
      links = inner ++ [⟨dotJoin [src, "spectrum", comp, fn, p.name], lawInst, lv⟩] := by
  unfold processParamG at h
  simp only [hpd] at h
  cases ha : applyOptionals p d with
  | error e => simp only [ha] at h; simp at h
  | ok pt =>
    obtain ⟨p1, tr0⟩ := pt
    simp only [ha, hv, hlm] at h
    cases hl : lookupY d "law" with
    | none => simp only [hl] at h; simp at h
    | some lawV =>
      simp only [hl] at h
      cases lawV with
      | num q => simp at h
      | str s => simp at h
      | bool b => simp at h
      | map les =>
        cases les with
        | nil => simp at h
        | cons hd0 tl0 =>
          obtain ⟨lfn, lv0⟩ := hd0
          cases hlf : lookupY ((lfn, lv0) :: tl0) lfn with
          | none => simp only [hlf] at h; simp at h
          | some lawDefV =>
            simp only [hlf] at h
            cases hlp : lp lfn lawDefV with
            | error e => simp only [hlp] at h; simp at h
            | ok pr =>
              obtain ⟨lawInst, inner⟩ := pr
              simp only [hlp] at h
              simp at h
              obtain ⟨hp2, hlinks, htr⟩ := h
              have hao := applyOptionals_ok ha
              refine ⟨?_, ?_, ?_, lfn, lv0, tl0, lawDefV, lawInst, inner, rfl, hlf, hlp, ?_⟩
              · rw [← hp2, hao.2.1]
              · rw [← hp2, hao.2.2.2]
              · rw [← htr, hao.1]
              · rw [← hlinks]

theorem processParamG_value_ok
    {lp : String → YVal → Except Err (FunctionInstance × List Link)}
    {src comp fn : String} {pdef d : List (String × YVal)} {p : Param}
    {v : YVal} {p2 : Param} {links : List Link} {tr : List String}
    (hpd : lookupY pdef p.name = some (.map d))
    (hv : lookupY d "value" = some v)
    (hlm : linkMatch v = none)
    (h : processParamG lp src comp fn (.map pdef) p = .ok (p2, links, tr)) :
    links = [] ∧ tr = optTrace d ++ ["value"] ∧
    ∃ p1, applyOptionals p d = .ok (p1, optTrace d) ∧ setValueF p1 v = .ok p2 := by
  unfold processParamG at h
  simp only [hpd] at h
  cases ha : applyOptionals p d with
  | error e => simp only [ha] at h; simp at h
  | ok pt =>
    obtain ⟨p1, tr0⟩ := pt
    simp only [ha, hv, hlm] at h
    cases hs : setValueF p1 v with
    | error e => simp only [hs] at h; simp at h
    | ok p2x =>
      simp only [hs] at h
      simp at h
      obtain ⟨hp2, hlinks, htr⟩ := h
      have hao := applyOptionals_ok ha
      refine ⟨by rw [← hlinks], by rw [← htr, hao.1], p1, ?_, by rw [hp2] at hs; exact hs⟩
      simp [ha, hao.1]

theorem goParams_ok_mem
    {lp : String → YVal → Except Err (FunctionInstance × List Link)}
    {src comp fn : String} {pdefV : YVal} {ps : List Param}
    {ps2 : List Param} {links : List Link}
    (h : goParams lp src comp fn pdefV ps = .ok (ps2, links)) :
    ∀ p ∈ ps, ∃ pd dv, pdefV = .map pd ∧ lookupY pd p.name = some dv := by
  induction ps generalizing ps2 links with
  | nil => intro p hp; simp at hp
  | cons q rest ih =>
    intro p hp
    unfold goParams at h
    cases hq : processParamG lp src comp fn pdefV q with
    | error e => simp only [hq] at h; simp at h
    | ok r =>
      obtain ⟨q1, links1, tr1⟩ := r
      simp only [hq] at h
      cases hrest : goParams lp src comp fn pdefV rest with
      | error e => simp only [hrest] at h; simp at h
      | ok pr =>
        obtain ⟨psr, links2⟩ := pr
        rcases List.mem_cons.mp hp with hp | hp
        · subst hp; exact processParamG_ok_lookup hq
        · exact ih hrest p hp

theorem processParamG_ok_links
    {lp : String → YVal → Except Err (FunctionInstance × List Link)}
    {src comp fn : String} {pdefV : YVal} {p : Param}
    {p2 : Param} {links : List Link} {tr : List String}
    (h : processParamG lp src comp fn pdefV p = .ok (p2, links, tr)) :
    links = [] ∨
    ∃ lfn lawDefV lawInst inner lv,
      lp lfn lawDefV = .ok (lawInst, inner) ∧
      links = inner ++ [⟨dotJoin [src, "spectrum", comp, fn, p.name], lawInst, lv⟩] := by
  obtain ⟨pd, dv, hmap, hd⟩ := processParamG_ok_lookup h
  subst hmap
  unfold processParamG at h
  simp only [hd] at h
  cases dv with
  | num q => simp at h
  | str s => simp at h
  | bool b => simp at h
  | map d =>
    cases ha : applyOptionals p d with
    | error e => simp only [ha] at h; simp at h
    | ok pt =>
      obtain ⟨p1, tr0⟩ := pt
      simp only [ha] at h
      cases hv : lookupY d "value" with
      | none => simp only [hv] at h; simp at h
      | some v =>
        simp only [hv] at h
        cases hlm : linkMatch v with
        | none =>
          simp only [hlm] at h
          cases hs : setValueF p1 v with
          | error e => simp only [hs] at h; simp at h
          | ok p2x =>
            simp only [hs] at h
            simp at h
            exact Or.inl (by rw [← h.2.1])
        | some lv =>
          simp only [hlm] at h
          cases hl : lookupY d "law" with
          | none => simp only [hl] at h; simp at h
          | some lawV =>
            simp only [hl] at h
            cases lawV with
            | num q => simp at h
            | str s => simp at h
            | bool b => simp at h
            | map les =>
              cases les with
              | nil => simp at h
              | cons hd0 tl0 =>
                obtain ⟨lfn, lv0⟩ := hd0
                cases hlf : lookupY ((lfn, lv0) :: tl0) lfn with
                | none => simp only [hlf] at h; simp at h
                | some lawDefV =>
                  simp only [hlf] at h
                  cases hlp : lp lfn lawDefV with
                  | error e => simp only [hlp] at h; simp at h
                  | ok pr =>
                    obtain ⟨lawInst, inner⟩ := pr
                    simp only [hlp] at h
                    simp at h
                    exact Or.inr ⟨lfn, lawDefV, lawInst, inner, lv, hlp, by rw [← h.2.1]⟩

theorem goParams_links_wf
    {lp : String → YVal → Except Err (FunctionInstance × List Link)}
    {src comp fn : String} {pdefV : YVal} {ps : List Param}
    {ps2 : List Param} {links : List Link}
    (hlp : ∀ lfn lawDefV fi ls, lp lfn lawDefV = .ok (fi, ls) →
      ∀ lk ∈ ls, ∃ f q, lk.parameterPath = dotJoin [src, "spectrum", comp, f, q])
    (h : goParams lp src comp fn pdefV ps = .ok (ps2, links)) :
    ∀ lk ∈ links, ∃ f q, lk.parameterPath = dotJoin [src, "spectrum", comp, f, q] := by
  induction ps generalizing ps2 links with
  | nil =>
    intro lk hlk
    unfold goParams at h
    simp at h
    rw [h.2] at hlk
    simp at hlk
  | cons q rest ih =>
    intro lk hlk
    unfold goParams at h
    cases hq : processParamG lp src comp fn pdefV q with
    | error e => simp only [hq] at h; simp at h
    | ok r =>
      obtain ⟨q1, links1, tr1⟩ := r
      simp only [hq] at h
      cases hrest : goParams lp src comp fn pdefV rest with
      | error e => simp only [hrest] at h; simp at h
      | ok pr =>
        obtain ⟨psr, links2⟩ := pr
        simp only [hrest] at h
        simp at h
        rw [← h.2] at hlk
        rcases List.mem_append.mp hlk with hmem | hmem
        · rcases processParamG_ok_links hq with hnil | ⟨lfn, lawDefV, lawInst, inner, lv, hlpok, hshape⟩
          · rw [hnil] at hmem; simp at hmem
          · rw [hshape] at hmem
            rcases List.mem_append.mp hmem with hmem2 | hmem2
            · exact hlp lfn lawDefV lawInst inner hlpok lk hmem2
            · simp at hmem2
              rw [hmem2]
              exact ⟨fn, q.name, rfl⟩
        · exact ih hrest lk hmem

theorem parseShapeF_links_wf :
    ∀ (fuel : Nat) (catalog : String → Option FunctionInstance)
      (src comp fn : String) (pdefV : YVal) (fi : FunctionInstance) (links : List Link),
      parseShapeF fuel catalog src comp fn pdefV = .ok (fi, links) →
      ∀ lk ∈ links, ∃ f q, lk.parameterPath = dotJoin [src, "spectrum", comp, f, q] := by
  intro fuel
  induction fuel with
  | zero =>
    intro catalog src comp fn pdefV fi links h
    simp [parseShapeF] at h
  | succ n ih =>
    intro catalog src comp fn pdefV fi links h lk hlk
    unfold parseShapeF at h
    cases hc : catalog fn with
    | none => simp only [hc] at h; simp at h
    | some fi0 =>
      simp only [hc] at h
      cases hg : goParams (fun lfn lawDefV => parseShapeF n catalog src comp lfn lawDefV)
          src comp fn pdefV fi0.params with
      | error e => simp only [hg] at h; simp at h
      | ok pr =>
        obtain ⟨ps, links0⟩ := pr
        simp only [hg] at h
        simp at h
        rw [← h.2] at hlk
        exact goParams_links_wf
          (fun lfn ld fi2 ls hl => ih catalog src comp lfn ld fi2 ls hl) hg lk hlk

theorem exceptView_some {α : Type} {e : Except Err α} {a : α}
    (h : exceptView e = some a) : e = .ok a := by
  cases e with
  | ok b => simp [exceptView] at h; rw [h]
  | error err => simp [exceptView] at h

theorem coordValue_some {sdDef : List (String × YVal)} {k : String} {q : Rat}
    (h : coordValue sdDef k = some q) :
    ∃ m, lookupY sdDef k = some (.map m) ∧ lookupY m "value" = some (.num q) := by
  unfold coordValue at h
  cases hk : lookupY sdDef k with
  | none => rw [hk] at h; simp at h
  | some v =>
    rw [hk] at h
    cases v with
    | num q2 => simp at h
    | str s => simp at h
    | bool b => simp at h
    | map m =>
      cases hm : lookupY m "value" with
      | none => simp [hm] at h
      | some w =>
        cases w with
        | num q2 => simp [hm] at h; exact ⟨m, rfl, by rw [← h]; exact hm⟩
        | str s => simp [hm] at h
        | bool b => simp [hm] at h
        | map mm => simp [hm] at h

theorem addChild_ok {t c t2 : MTree} (h : addChild t c = .ok t2) :
    t2 = .node t.name t.kind (t.children ++ [c]) := by
  unfold addChild at h
  split at h
  · simp at h
  · simp at h; rw [← h]

theorem addChildren_ok {ns : List MTree} :
    ∀ {n : String} {k : NodeKind} {cs : List MTree} {t : MTree},
    addChildren (.node n k cs) ns = .ok t → t = .node n k (cs ++ ns) := by
  induction ns with
  | nil =>
    intro n k cs t h
    unfold addChildren at h
    simp at h
    rw [← h]
    simp
  | cons c rest ih =>
    intro n k cs t h
    unfold addChildren at h
    cases ha : addChild (.node n k cs) c with
    | error e => rw [ha] at h; simp at h
    | ok t1 =>
      rw [ha] at h
      have := addChild_ok ha
      simp [MTree.name, MTree.kind, MTree.children] at this
      rw [this] at h
      have := ih h
      rw [this]
      simp

/-! ## Claim theorems -/

/-- Claim C9: every link record appended during shape parsing has a
`parameter_path` equal to the dot-join of the source name, the literal
segment "spectrum", the component name, a function name and a parameter
name, in that order — in particular the path always contains "spectrum",
also for links created while recursively parsing a law. -/
theorem claim_C9 (catalog : String → Option FunctionInstance)
    (src comp fn : String) (pdefV : YVal) (fi : FunctionInstance) (links : List Link)
    (h : parseShape catalog src comp fn pdefV = .ok (fi, links)) :
    ∀ lk ∈ links, ∃ f q, lk.parameterPath = dotJoin [src, "spectrum", comp, f, q] :=
  parseShapeF_links_wf (ySize pdefV + 1) catalog src comp fn pdefV fi links h

/-- Witness for C9 at a concrete linked shape definition: the single link
record produced for `f(time)` carries a path of the required dot-joined
shape. -/
theorem claim_C9_witness :
    ∃ f q, ({ parameterPath := "A.spectrum.main.powerlaw.K",
              law := { name := "powerlaw", params := [{ name := "K", value := 2 }] },
              varName := "time" } : Link).parameterPath
      = dotJoin ["A", "spectrum", "main", f, q] :=
  claim_C9 testCatalog "A" "main" "powerlaw" (.map [("K", .map linkedKDef)])
    { name := "powerlaw", params := [{ name := "K", value := 1 }] }
    [{ parameterPath := "A.spectrum.main.powerlaw.K",
       law := { name := "powerlaw", params := [{ name := "K", value := 2 }] },
       varName := "time" }]
    (exceptView_some (by decide))
    { parameterPath := "A.spectrum.main.powerlaw.K",
      law := { name := "powerlaw", params := [{ name := "K", value := 2 }] },
      varName := "time" }
    (by simp)

/-- Claim C3: shape parsing iterates over the parameter set declared by the
catalog's function instance, not over the user's keys: a successful parse
requires a user entry for every catalog-declared parameter, and a
catalog-declared parameter absent from the user mapping makes the parse fail
with the structural error naming function, component, source and missing
parameter. -/
theorem claim_C3 (catalog : String → Option FunctionInstance)
    (src comp fn : String) (pdefV : YVal) (fi : FunctionInstance)
    (hc : catalog fn = some fi) :
    (∀ fi2 links, parseShape catalog src comp fn pdefV = .ok (fi2, links) →
      ∀ p ∈ fi.params, ∃ pd dv, pdefV = .map pd ∧ lookupY pd p.name = some dv)
    ∧ (∀ p ps pd, fi.params = p :: ps → pdefV = .map pd → lookupY pd p.name = none →
      parseShape catalog src comp fn pdefV
        = .error (.modelSyntaxError (lacksDefinitionMsg fn comp src p.name))) := by
  constructor
  · intro fi2 links h
    unfold parseShape parseShapeF at h
    simp only [hc] at h
    cases hg : goParams (fun lfn lawDefV => parseShapeF (ySize pdefV) catalog src comp lfn lawDefV)
        src comp fn pdefV fi.params with
    | error e => rw [hg] at h; simp at h
    | ok pr => exact goParams_ok_mem hg
  · intro p ps pd hps hmap hnone
    subst hmap
    unfold parseShape parseShapeF
    simp only [hc, hps]
    unfold goParams
    rw [processParamG_lacks hnone]

/-- Witness for C3: the test catalog declares parameter K for powerlaw, and a
shape definition that omits K fails with the exact structural error. -/
theorem claim_C3_witness :
    testCatalog "powerlaw" = some powerlawFI ∧
    parseShape testCatalog "s" "c" "powerlaw" (.map [])
      = .error (.modelSyntaxError (lacksDefinitionMsg "powerlaw" "c" "s" "K")) :=
  ⟨rfl, (claim_C3 testCatalog "s" "c" "powerlaw" (.map []) powerlawFI rfl).2
      { name := "K", value := 1 } [] [] rfl rfl rfl⟩

/-- Claim C1: for a parameter definition whose value entry matches the
single-argument call pattern `f(<path>)`, shape parsing requires a sibling
`law` entry — failing with the structural error naming parameter, function,
component, source and referenced variable when absent — and on success keeps
the parameter's catalog-default value, parses the law's first entry
recursively with the same shape parser, and appends a link record holding
the dotted parameter path, the law instance and the referenced variable. -/
theorem claim_C1 (catalog : String → Option FunctionInstance)
    (src comp fn : String) (pdef d : List (String × YVal))
    (p : Param) (v : YVal) (lv : String)
    (hpd : lookupY pdef p.name = some (.map d))
    (hwt : wtOptionals d = true)
    (hv : lookupY d "value" = some v)
    (hlm : linkMatch v = some lv) :
    (lookupY d "law" = none →
      processParam catalog src comp fn (.map pdef) p
        = .error (.modelSyntaxError (missingLawMsg p.name fn comp src lv)))
    ∧ (∀ p2 links tr, processParam catalog src comp fn (.map pdef) p = .ok (p2, links, tr) →
      p2.value = p.value ∧ p2.aux = p.aux ∧
      ∃ lfn lv0 lrest lawDefV lawInst inner,
        lookupY d "law" = some (.map ((lfn, lv0) :: lrest)) ∧
        lookupY ((lfn, lv0) :: lrest) lfn = some lawDefV ∧
        parseShape catalog src comp lfn lawDefV = .ok (lawInst, inner) ∧
        links = inner ++ [⟨dotJoin [src, "spectrum", comp, fn, p.name], lawInst, lv⟩]) := by
  constructor
  · intro hl
    exact processParamG_missing_law hpd hwt hv hlm hl
  · intro p2 links tr h
    have := processParamG_link_ok hpd hv hlm h
    exact ⟨this.1, this.2.1, this.2.2.2⟩

/-- Witness for C1 at the concrete linked definition `f(time)` with its
powerlaw law: the parse keeps the default value 1 and appends the link. -/
theorem claim_C1_witness :
    ({ name := "K", value := 1 } : Param).value = ({ name := "K", value := 1 } : Param).value ∧
    ({ name := "K", value := 1 } : Param).aux = ({ name := "K", value := 1 } : Param).aux ∧
    ∃ lfn lv0 lrest lawDefV lawInst inner,
      lookupY linkedKDef "law" = some (.map ((lfn, lv0) :: lrest)) ∧
      lookupY ((lfn, lv0) :: lrest) lfn = some lawDefV ∧
      parseShape testCatalog "A" "main" lfn lawDefV = .ok (lawInst, inner) ∧
      [({ parameterPath := "A.spectrum.main.powerlaw.K",
          law := { name := "powerlaw", params := [{ name := "K", value := 2 }] },
          varName := "time" } : Link)]
        = inner ++ [⟨dotJoin ["A", "spectrum", "main", "powerlaw", "K"], lawInst, "time"⟩] :=
  (claim_C1 testCatalog "A" "main" "powerlaw" [("K", .map linkedKDef)] linkedKDef
      { name := "K", value := 1 } (.str "f(time)") "time" rfl (by decide) rfl (by decide)).2
    { name := "K", value := 1 }
    [{ parameterPath := "A.spectrum.main.powerlaw.K",
       law := { name := "powerlaw", params := [{ name := "K", value := 2 }] },
       varName := "time" }]
    []
    (exceptView_some (by decide))

/-- Claim C4: for a parameter present in the user's mapping, the optional
keys min, max, delta, fix, free, unit are applied in exactly that order (the
application trace is the presence-filter of the canonical key list), with the
`value` write — when it happens at all — strictly after them; the `value`
key is mandatory, and its absence fails with the structural error naming
parameter, function, component and source. -/
theorem claim_C4 (catalog : String → Option FunctionInstance)
    (src comp fn : String) (pdef d : List (String × YVal)) (p : Param)
    (hpd : lookupY pdef p.name = some (.map d)) :
    (wtOptionals d = true → lookupY d "value" = none →
      processParam catalog src comp fn (.map pdef) p
        = .error (.modelSyntaxError (missingValueMsg p.name fn comp src)))
    ∧ (∀ v p2 links tr, lookupY d "value" = some v →
      processParam catalog src comp fn (.map pdef) p = .ok (p2, links, tr) →
      tr = optTrace d ++ (match linkMatch v with | some _ => [] | none => ["value"])) := by
  constructor
  · intro hwt hvnone
    exact processParamG_missing_value hpd hwt hvnone
  · intro v p2 links tr hv h
    cases hlm : linkMatch v with
    | some lv =>
      have := processParamG_link_ok hpd hv hlm h
      rw [this.2.2.1]
      simp
    | none =>
      have := processParamG_value_ok hpd hv hlm h
      rw [this.2.1]

/-- Witness for C4: a definition lacking `value` fails with the exact
missing-value error, and a definition with min, max and value produces the
application trace min, max, value. -/
theorem claim_C4_witness :
    processParam testCatalog "s" "c" "powerlaw"
        (.map [("K", .map [("min", .num 0), ("max", .num 5)])]) { name := "K", value := 1 }
      = .error (.modelSyntaxError (missingValueMsg "K" "powerlaw" "c" "s"))
    ∧ ["min", "max", "value"]
      = optTrace [("min", YVal.num 0), ("max", YVal.num 5), ("value", YVal.num 2)]
        ++ (match linkMatch (.num 2) with | some _ => [] | none => ["value"]) :=
  ⟨(claim_C4 testCatalog "s" "c" "powerlaw" [("K", .map [("min", .num 0), ("max", .num 5)])]
      [("min", .num 0), ("max", .num 5)] { name := "K", value := 1 } rfl).1 (by decide) rfl,
   (claim_C4 testCatalog "s" "c" "powerlaw"
      [("K", .map [("min", .num 0), ("max", .num 5), ("value", .num 2)])]
      [("min", .num 0), ("max", .num 5), ("value", .num 2)] { name := "K", value := 1 } rfl).2
     (.num 2) { name := "K", value := 2, minValue := some 0, maxValue := some 5 } []
     ["min", "max", "value"] rfl (exceptView_some (by decide))⟩

/-- Claim C5: position parsing recognizes the pair {ra, dec} first, else
{l, b}; a complete well-formed pair yields two fixed parameters with bounds
[0, 360] for the longitude-like and [-90, 90] for the latitude-like
coordinate, an optional equinox entry passed through; with neither complete
pair present it fails with the structural error naming the source. -/
theorem claim_C5 (src : String) (sdDef : List (String × YVal)) :
    (∀ ra dec, coordValue sdDef "ra" = some ra → coordValue sdDef "dec" = some dec →
      parseSkyDirection src (.map sdDef)
        = .ok { coords := [("ra", mkCoordParam "ra" ra 0 360),
                           ("dec", mkCoordParam "dec" dec (-90) 90)],
                equinox := lookupY sdDef "equinox" })
    ∧ (∀ lv bv, ((lookupY sdDef "ra").isSome && (lookupY sdDef "dec").isSome) = false →
      coordValue sdDef "l" = some lv → coordValue sdDef "b" = some bv →
      parseSkyDirection src (.map sdDef)
        = .ok { coords := [("l", mkCoordParam "l" lv 0 360),
                           ("b", mkCoordParam "b" bv (-90) 90)],
                equinox := lookupY sdDef "equinox" })
    ∧ (((lookupY sdDef "ra").isSome && (lookupY sdDef "dec").isSome) = false →
      ((lookupY sdDef "l").isSome && (lookupY sdDef "b").isSome) = false →
      parseSkyDirection src (.map sdDef)
        = .error (.modelSyntaxError (invalidCoordinatesMsg src))) := by
  refine ⟨?_, ?_, ?_⟩
  · intro ra dec hra hdec
    obtain ⟨mra, hra1, hra2⟩ := coordValue_some hra
    obtain ⟨mdec, hdec1, hdec2⟩ := coordValue_some hdec
    unfold parseSkyDirection
    simp [hra1, hdec1, hra2, hdec2, mkCoordParam]
  · intro lv bv hexcl hl hb
    obtain ⟨ml, hl1, hl2⟩ := coordValue_some hl
    obtain ⟨mb, hb1, hb2⟩ := coordValue_some hb
    unfold parseSkyDirection
    simp [hexcl, hl1, hb1, hl2, hb2, mkCoordParam]
  · intro h1 h2
    unfold parseSkyDirection
    simp [h1, h2]

/-- Witness for C5: the complete pair {ra: 10, dec: 20} yields the two fixed
bounded parameters, and ra alone fails with the invalid-coordinates error. -/
theorem claim_C5_witness :
    parseSkyDirection "A"
        (.map [("ra", .map [("value", .num 10)]), ("dec", .map [("value", .num 20)])])
      = .ok { coords := [("ra", mkCoordParam "ra" 10 0 360),
                         ("dec", mkCoordParam "dec" 20 (-90) 90)],
              equinox := none }
    ∧ parseSkyDirection "A" (.map [("ra", .map [("value", .num 10)])])
      = .error (.modelSyntaxError (invalidCoordinatesMsg "A")) :=
  ⟨(claim_C5 "A" [("ra", .map [("value", .num 10)]), ("dec", .map [("value", .num 20)])]).1
      10 20 rfl rfl,
   (claim_C5 "A" [("ra", .map [("value", .num 10)])]).2.2 rfl rfl⟩

/-- Claim C6: a point-source definition lacking the `position` section fails
with the structural error naming "position" and the source; one with a
parseable position but lacking the `spectrum` section fails with the
structural error naming "spectrum" and the source; in both cases no source is
built. -/
theorem claim_C6 (catalog : String → Option FunctionInstance)
    (src : String) (entries : List (String × YVal)) :
    (lookupY entries "position" = none →
      parsePointSource catalog src (.map entries)
        = .error (.modelSyntaxError (missingPositionMsg src)))
    ∧ (∀ posV sd, lookupY entries "position" = some posV →
      parseSkyDirection src posV = .ok sd →
      lookupY entries "spectrum" = none →
      parsePointSource catalog src (.map entries)
        = .error (.modelSyntaxError (missingSpectrumMsg src))) := by
  constructor
  · intro hpos
    unfold parsePointSource
    simp only [hpos]
  · intro posV sd hpos hsd hspec
    unfold parsePointSource
    simp only [hpos, hsd, hspec]

/-- Witness for C6: a definition with neither section fails naming
"position"; one with only a valid position fails naming "spectrum". -/
theorem claim_C6_witness :
    parsePointSource testCatalog "A" (.map [])
      = .error (.modelSyntaxError (missingPositionMsg "A"))
    ∧ parsePointSource testCatalog "A"
        (.map [("position",
          .map [("ra", .map [("value", .num 10)]), ("dec", .map [("value", .num 20)])])])
      = .error (.modelSyntaxError (missingSpectrumMsg "A")) :=
  ⟨(claim_C6 testCatalog "A" []).1 rfl,
   (claim_C6 testCatalog "A"
      [("position",
        .map [("ra", .map [("value", .num 10)]), ("dec", .map [("value", .num 20)])])]).2
     (.map [("ra", .map [("value", .num 10)]), ("dec", .map [("value", .num 20)])])
     { coords := [("ra", mkCoordParam "ra" 10 0 360), ("dec", mkCoordParam "dec" 20 (-90) 90)],
       equinox := none }
     rfl
     (by rfl)
     rfl⟩

/-- Claim C2: on the forward-link document, pass 1 succeeds collecting
exactly the one pending link record in document order; pass 2, run only
after the source and the later-declared independent variable have been
assembled into the model, resolves it — the target parameter carries the
auxiliary link to `time` with the `powerlaw` law, and `time` is registered
at the model root — so the forward reference parses successfully. -/
theorem claim_C2 :
    (exceptView (parseDoc testCatalog docForward)).map linksView
      = some [("A.spectrum.main.powerlaw.K", "time", "powerlaw")]
    ∧ modelAuxAt testCatalog docForward "A.spectrum.main.powerlaw.K"
      = some (some (some ("time", "powerlaw")))
    ∧ modelIndVarAt testCatalog docForward "time"
      = some (some { name := "time", value := 5 }) :=
  ⟨by decide, by decide, by decide⟩

/-- Claim C7 (code evaluation): a component definition that carries an
explicit polarization sub-section is parsed into a `SpectralComponent`
holding the default "none" polarization — the polarization sub-section is
ignored by `_parse_spectral_component`, which always constructs the default
`Polarization()`. -/
theorem claim_C7 :
    exceptView (parseSpectralComponent testCatalog "s1" "main" polarizedCompDef)
      = some ({ name := "main",
                shape := { name := "powerlaw", params := [{ name := "K", value := 1 }] },
                polarization := { kind := "none" } }, []) := by
  decide

/-- Claim C8 (code evaluation): a top-level entry tagged `(extended source)`
is dispatched to `_parse_extended_source`, which returns the bare placeholder
`0` instead of a source entity; the placeholder is what gets registered in
the source list. -/
theorem claim_C8 :
    (exceptView (sourceParse testCatalog "ext1 (extended source)" (.map []))).map
        (fun r => (placeholderOf r.1, r.2))
      = some (some 0, []) := by
  decide

/-- Claim C10: whatever constructor form succeeds, a `PointSource` has
exactly two structural children — a position child and a node named
"spectrum" whose children are the spectral components; components are never
attached directly under the source node. -/
theorem claim_C10 (sourceName : String) (ra dec : Option Rat)
    (spectralShape : Option FunctionInstance) (l b : Option Rat)
    (components : Option (List SpectralComponentE)) (skyPosition : Option SkyDirection)
    (t : MTree)
    (h : pointSourceInit sourceName ra dec spectralShape l b components skyPosition = .ok t) :
    ∃ (sd : SkyDirection) (cs : List SpectralComponentE), t = .node sourceName .plain
        [skyNode sd, .node "spectrum" .plain (cs.map componentNode)] := by
  unfold pointSourceInit at h
  cases hsky : gatherSkyPosition ra dec l b skyPosition with
  | error e =>
    rw [hsky] at h
    split at h
    next e2 heq =>
      dsimp only at h
      split at h <;> simp at h
    next sky1 heq => simp at heq
  | ok sky0 =>
    rw [hsky] at h
    split at h
    next e2 heq => simp at heq
    next sky1 heq =>
      split at h
      · dsimp only at h
        split at h <;> simp at h
      · dsimp only at h
        split at h
        · simp at h
        · rw [show addChild (MTree.node sourceName NodeKind.plain []) (skyNode (skyFix sky1))
                = Except.ok (MTree.node sourceName NodeKind.plain [skyNode (skyFix sky1)]) from rfl] at h
          dsimp only at h
          split at h
          · simp at h
          next specNode h2 =>
            have e2 := addChildren_ok h2
            have e3 := addChild_ok h
            subst e2
            refine ⟨skyFix sky1,
              componentsByName
                (match spectralShape with
                 | some sh => [spectralComponentInit "main" sh none]
                 | none => components.getD []), ?_⟩
            subst e3
            simp [MTree.name, MTree.kind, MTree.children]
            cases spectralShape <;> rfl

/-- Witness for C10 at the equatorial-pair-plus-shape constructor form. -/
theorem claim_C10_witness :
    ∃ (sd : SkyDirection) (cs : List SpectralComponentE),
      MTree.node "s" NodeKind.plain
        [skyNode (skyFix (mkSkyDirRaDec 1 2)),
         MTree.node "spectrum" NodeKind.plain
           ([spectralComponentInit "main" powerlawFI none].map componentNode)]
      = .node "s" .plain [skyNode sd, .node "spectrum" .plain (cs.map componentNode)] :=
  claim_C10 "s" (some 1) (some 2) (some powerlawFI) none none none none
    (MTree.node "s" NodeKind.plain
      [skyNode (skyFix (mkSkyDirRaDec 1 2)),
       MTree.node "spectrum" NodeKind.plain
         ([spectralComponentInit "main" powerlawFI none].map componentNode)])
    (by rfl)

/-! ## Fuel adequacy: the wrapper fuel `ySize pdefV + 1` is irrelevant slack,
so the zero-fuel branch of `parseShapeF` is unreachable from `parseShape`. -/

theorem ySize_pos (v : YVal) : 1 ≤ ySize v := by
  cases v <;> simp [ySize]

theorem lookupY_ySize_lt {l : List (String × YVal)} {k : String} {v : YVal}
    (h : lookupY l k = some v) : ySize v < ySizeL l := by
  induction l with
  | nil => simp [lookupY] at h
  | cons kv rest ih =>
    obtain ⟨k0, w⟩ := kv
    by_cases hk : k0 = k
    · simp [lookupY, hk] at h
      subst h
      simp [ySizeL]
      omega
    · simp [lookupY, hk] at h
      have := ih h
      simp [ySizeL]
      omega

theorem processParamG_congr
    {lp1 lp2 : String → YVal → Except Err (FunctionInstance × List Link)}
    {src comp fn : String} {pdefV : YVal} {p : Param}
    (hagree : ∀ lfn ld, ySize ld < ySize pdefV → lp1 lfn ld = lp2 lfn ld) :
    processParamG lp1 src comp fn pdefV p = processParamG lp2 src comp fn pdefV p := by
  unfold processParamG
  cases pdefV with
  | num q => rfl
  | str s => rfl
  | bool b => rfl
  | map pd =>
    dsimp only
    cases hd : lookupY pd p.name with
    | none => rfl
    | some dv =>
      cases dv with
      | num q => rfl
      | str s => rfl
      | bool b => rfl
      | map d =>
        dsimp only
        cases ha : applyOptionals p d with
        | error e => rfl
        | ok pt =>
          obtain ⟨p1, tr0⟩ := pt
          dsimp only
          cases hv : lookupY d "value" with
          | none => rfl
          | some v =>
            dsimp only
            cases hlm : linkMatch v with
            | none => rfl
            | some lv =>
              dsimp only
              cases hl : lookupY d "law" with
              | none => rfl
              | some lawV =>
                cases lawV with
                | num q => rfl
                | str s => rfl
                | bool b => rfl
                | map les =>
                  cases les with
                  | nil => rfl
                  | cons hd0 tl0 =>
                    obtain ⟨lfn, lv0⟩ := hd0
                    dsimp only
                    cases hlf : lookupY ((lfn, lv0) :: tl0) lfn with
                    | none => rfl
                    | some ld =>
                      have hsize : ySize ld < ySize (YVal.map pd) := by
                        have s1 := lookupY_ySize_lt hd
                        have s2 := lookupY_ySize_lt hl
                        have s3 := lookupY_ySize_lt hlf
                        simp [ySize, ySizeL] at s1 s2 s3 ⊢
                        omega
                      dsimp only
                      rw [hagree lfn ld hsize]

theorem goParams_congr
    {lp1 lp2 : String → YVal → Except Err (FunctionInstance × List Link)}
    {src comp fn : String} {pdefV : YVal}
    (hagree : ∀ lfn ld, ySize ld < ySize pdefV → lp1 lfn ld = lp2 lfn ld) :
    ∀ ps, goParams lp1 src comp fn pdefV ps = goParams lp2 src comp fn pdefV ps := by
  intro ps
  induction ps with
  | nil => rfl
  | cons q rest ih =>
    unfold goParams
    rw [processParamG_congr hagree, ih]

theorem parseShapeF_fuel_congr :
    ∀ (bound : Nat) (pdefV : YVal), ySize pdefV ≤ bound →
    ∀ (f1 f2 : Nat), ySize pdefV < f1 → ySize pdefV < f2 →
    ∀ (catalog : String → Option FunctionInstance) (src comp fn : String),
    parseShapeF f1 catalog src comp fn pdefV = parseShapeF f2 catalog src comp fn pdefV := by
  intro bound
  induction bound with
  | zero =>
    intro pdefV hb
    have := ySize_pos pdefV
    omega
  | succ n ih =>
    intro pdefV hb f1 f2 h1 h2 catalog src comp fn
    have hp := ySize_pos pdefV
    cases f1 with
    | zero => omega
    | succ a =>
      cases f2 with
      | zero => omega
      | succ b =>
        unfold parseShapeF
        cases catalog fn with
        | none => rfl
        | some fi =>
          have hg : goParams (fun lfn lawDefV => parseShapeF a catalog src comp lfn lawDefV)
                src comp fn pdefV fi.params
              = goParams (fun lfn lawDefV => parseShapeF b catalog src comp lfn lawDefV)
                src comp fn pdefV fi.params := by
            apply goParams_congr
            intro lfn ld hld
            exact ih ld (by omega) a b (by omega) (by omega) catalog src comp lfn
          dsimp only
          rw [hg]

/-- Any fuel strictly above `ySize pdefV` computes exactly `parseShape`: the
fuel of the wrapper is pure slack and the zero-fuel branch is unreachable. -/
theorem parseShapeF_eq_parseShape
    (fuel : Nat) (catalog : String → Option FunctionInstance)
    (src comp fn : String) (pdefV : YVal) (h : ySize pdefV < fuel) :
    parseShapeF fuel catalog src comp fn pdefV = parseShape catalog src comp fn pdefV :=
  parseShapeF_fuel_congr (ySize pdefV) pdefV le_rfl fuel (ySize pdefV + 1) h
    (Nat.lt_succ_self _) catalog src comp fn
